import Mathlib

/-!
# Catalyst pipeline verification

A shallow embedding of the core catalyst pipeline of the stock-scanner
backend, covering:

* `backend/app/scrapers/fda_calendar.py` — the merge/deduplication pass
  (`_merge_and_deduplicate`), the post-merge date-range filter of
  `get_fda_events`, and the approval-probability estimator
  (`_estimate_approval_probability`);
* `backend/app/services/catalyst_tracker.py` — the scoring engine
  (`_calculate_approval_probability`, `_calculate_catalyst_score`) and the
  single-flight cache discipline of `get_catalyst_events`.

Python dictionaries carrying event fields are embedded as a structure
`Event` whose string fields default to `""` (the falsy default used by
`event.get(field, '')` in the source).  Machine floats are embedded as
rationals; Python `int` as `Int`.  Fallible parsing returns `Option`.
-/

namespace StockScanner

/-! ## Python string primitives

Lean core's own `String` operations (`toUpper`, `splitOn`, `toNat?`, …)
are compiled by well-founded recursion and do not reduce inside the
kernel, so the Python string operations are re-implemented here by
structural recursion over `String.data`; every definition in this file
evaluates under `decide`. -/

/-- Does the first list start with the second?  (Helper for substring
containment, used to embed the Python `needle in haystack` test.) -/
def startsWithChars : List Char → List Char → Bool
  | _, [] => true
  | [], _ :: _ => false
  | a :: as, b :: bs => a == b && startsWithChars as bs

/-- Does the first list contain the second as a contiguous sublist? -/
def containsChars : List Char → List Char → Bool
  | [], n => n.isEmpty
  | h :: t, n => startsWithChars (h :: t) n || containsChars t n

/-- Embedding of Python's substring test `needle in hay`. -/
def pyIn (needle hay : String) : Bool :=
  containsChars hay.data needle.data

/-- ASCII upper-casing of one character, as Python's `str.upper` acts on
the ASCII titles handled by this code (mirrors `Char.toUpper`). -/
def charUpper (c : Char) : Char :=
  if 97 ≤ c.toNat ∧ c.toNat ≤ 122 then Char.ofNat (c.toNat - 32) else c

/-- ASCII lower-casing of one character (mirrors `Char.toLower`). -/
def charLower (c : Char) : Char :=
  if 65 ≤ c.toNat ∧ c.toNat ≤ 90 then Char.ofNat (c.toNat + 32) else c

/-- Python `s.upper()`. -/
def pyUpper (s : String) : String := ⟨s.data.map charUpper⟩

/-- Python `s.lower()`. -/
def pyLower (s : String) : String := ⟨s.data.map charLower⟩

/-- Split a character list at every occurrence of `sep` (Python
`s.split(sep)` / the fixed-separator part of `str.split`). -/
def splitChars (sep : Char) : List Char → List (List Char)
  | [] => [[]]
  | c :: cs =>
    let r := splitChars sep cs
    if c = sep then [] :: r
    else (c :: r.headD []) :: r.tail

/-- Is this an ASCII digit? -/
def isDigitChar (c : Char) : Bool :=
  48 ≤ c.toNat && c.toNat ≤ 57

/-- Value of a nonempty all-digit character list, `none` otherwise. -/
def digitsToNat (l : List Char) : Option Nat :=
  if l ≠ [] ∧ l.all isDigitChar then
    some (l.foldl (fun a c => 10 * a + (c.toNat - 48)) 0)
  else none

/-! ## Date handling

`datetime.strptime(s, '%Y-%m-%d')`: the CPython format regex demands
exactly four digits for `%Y` and one or two digits for `%m` / `%d`
(values range-checked, no sign), and the whole string must be consumed.
A successfully parsed date is turned into an absolute day number so that
`timedelta.days` between two midnight datetimes is an exact difference. -/

def isLeap (y : Nat) : Bool :=
  y % 4 == 0 && (y % 100 != 0 || y % 400 == 0)

def daysInMonth (y m : Nat) : Nat :=
  if m = 2 then (if isLeap y then 29 else 28)
  else if m = 4 ∨ m = 6 ∨ m = 9 ∨ m = 11 then 30
  else 31

def leapsBefore (y : Nat) : Nat :=
  (y - 1) / 4 - (y - 1) / 100 + (y - 1) / 400

def daysBeforeYear (y : Nat) : Nat :=
  365 * (y - 1) + leapsBefore y

def daysBeforeMonth (y m : Nat) : Nat :=
  (List.range (m - 1)).foldl (fun a i => a + daysInMonth y (i + 1)) 0

/-- Absolute day number of a calendar date (day 1 = 0001-01-01). -/
def dayNumber (y m d : Nat) : Nat :=
  daysBeforeYear y + daysBeforeMonth y m + d

/-- `datetime.strptime(s, '%Y-%m-%d')`, returning the absolute day number
of the parsed date, or `none` when parsing raises `ValueError`. -/
def parseDate (s : String) : Option Nat :=
  match splitChars '-' s.data with
  | [ys, ms, ds] =>
    match digitsToNat ys, digitsToNat ms, digitsToNat ds with
    | some y, some m, some d =>
      if ys.length = 4 ∧ (ms.length = 1 ∨ ms.length = 2) ∧
         (ds.length = 1 ∨ ds.length = 2) ∧
         1 ≤ y ∧ 1 ≤ m ∧ m ≤ 12 ∧ 1 ≤ d ∧ d ≤ daysInMonth y m
      then some (dayNumber y m d) else none
    | _, _, _ => none
  | _ => none

/-! ## The event record

One structure stands for the per-event Python dict flowing through the
pipeline.  A missing or empty string key is `""`; a missing `sources`
list is `[]`; `days_until` is `none` until the range filter sets it;
`fundamentals` embeds the per-ticker Finviz dict as an association list.
The field `extra` stands for any further dict entries that none of the
embedded functions ever read (for instance `source_url`, `latest_news`):
it lets us state that the scoring functions depend only on the fields
they actually access. -/

/-- Result dict of the approval-probability estimators:
`{'probability': …, 'confidence': …, 'factors': […]}`. -/
structure ProbResult where
  probability : Int
  confidence : String
  factors : List String
  deriving DecidableEq, Repr, Inhabited

structure Event where
  ticker : String := ""
  company : String := ""
  drug_name : String := ""
  indication : String := ""
  catalyst_type : String := ""
  catalyst_date : String := ""
  phase : String := ""
  status : String := ""
  source : String := ""
  nct_id : String := ""
  trial_title : String := ""
  sources : List String := []
  days_until : Option Int := none
  fundamentals : List (String × String) := []
  approval_probability : Option ProbResult := none
  extra : String := ""
  deriving DecidableEq, Repr, Inhabited

/-- Python dict `get` with default, for the `fundamentals` mapping. -/
def fget (f : List (String × String)) (k : String) (d : String) : String :=
  match f.find? (fun p => p.1 = k) with
  | some p => p.2
  | none => d

/-! ## `_merge_and_deduplicate` (fda_calendar.py, lines 1353-1450) -/

/-- `NON_TRADEABLE_TICKERS` (fda_calendar.py). -/
def NON_TRADEABLE_TICKERS : List String :=
  ["PIERREF", "CHIESI", "IMMEDICA", "SENTYNL", "BAMXF",
   "SUNPHARMA", "CIPLA", "LUPIN"]

/-- `EXCLUDED_TICKERS` (fda_calendar.py). -/
def EXCLUDED_TICKERS : List String :=
  ["FDA", "SEC", "CEO", "IPO", "ETF", "USA", "USD", "NDA", "BLA", "CRL",
   "THE", "FOR", "AND", "NEW", "ALL", "NDS", "SNDA", "SBLA", "PDUFA",
   "AML", "NSCLC", "AFRS", "MPS", "EBV", "PTLD", "NET", "NETS",
   "CML", "NHL", "RCC", "HCC", "GBM", "CLL", "SLE", "IBD",
   "PRE", "NOT", "ITS", "MAY", "DEC", "JAN", "FEB", "MAR", "APR", "JUN",
   "JUL", "AUG", "SEP", "OCT", "NOV", "DNA", "RNA", "CDX", "MDD", "PKU",
   "GAD", "OCD", "ASD", "IGA", "TED", "NETs"]

/-- First pass of `_merge_and_deduplicate`: drop events with no ticker, a
non-tradeable ticker or an excluded ticker; store the uppercased ticker
back into the event. -/
def validFilter (l : List Event) : List Event :=
  l.filterMap (fun e =>
    let t := pyUpper e.ticker
    if t = "" ∨ t ∈ NON_TRADEABLE_TICKERS ∨ t ∈ EXCLUDED_TICKERS then none
    else some { e with ticker := t })

/-- `MERGE_TYPES`: catalyst-type sets that describe the same FDA decision. -/
def MERGE_TYPES : List (List String) :=
  [["PDUFA", "NDA"], ["PDUFA", "BLA"], ["NDA", "BLA"], ["PDUFA", "NDA", "BLA"]]

/-- `types_compatible(t1, t2)` (fda_calendar.py, lines 1379-1382). -/
def types_compatible (t1 t2 : String) : Bool :=
  t1 == t2 || MERGE_TYPES.any (fun s => s.contains t1 && s.contains t2)

/-- `date_diff_days(d1, d2)` (fda_calendar.py, lines 1384-1393): absolute
days between two date strings, or the sentinel 999 when either is empty
or unparseable. -/
def date_diff_days (d1 d2 : String) : Nat :=
  if d1 = "" ∨ d2 = "" then 999
  else match parseDate d1, parseDate d2 with
    | some n1, some n2 => ((n1 : Int) - (n2 : Int)).natAbs
    | _, _ => 999

/-- Field-merge rule inside `merge_into`: an empty value is overwritten by
a non-empty one, and a strictly longer value wins over a shorter one. -/
def mergeField (e n : String) : String :=
  if e = "" then (if n ≠ "" then n else e)
  else if n ≠ "" ∧ n.length > e.length then n else e

/-- `type_priority` map inside `merge_into` (default 0). -/
def typePriority (t : String) : Nat :=
  if t = "PDUFA" then 4
  else if t = "NDA" then 3
  else if t = "BLA" then 3
  else if t = "AdCom" then 2
  else if t = "Approval" then 5
  else if t = "CRL" then 5
  else 0

/-- `merge_into(existing, new_event)` (fda_calendar.py, lines 1395-1412).
The `sources` default `[existing.get('source','')]` applies when the key
is absent, embedded here as the empty list. -/
def merge_into (x n : Event) : Event :=
  let x := { x with
    company := mergeField x.company n.company,
    drug_name := mergeField x.drug_name n.drug_name,
    indication := mergeField x.indication n.indication,
    phase := mergeField x.phase n.phase,
    nct_id := mergeField x.nct_id n.nct_id,
    trial_title := mergeField x.trial_title n.trial_title }
  let srcs := if x.sources.isEmpty then [x.source] else x.sources
  let srcs := if n.source ≠ "" ∧ n.source ∉ srcs then srcs ++ [n.source] else srcs
  let x := { x with sources := srcs }
  if typePriority n.catalyst_type > typePriority x.catalyst_type then
    { x with catalyst_type := n.catalyst_type }
  else x

/-- `event['sources'] = [event.get('source','')]`, performed when an event
is first inserted into the exact-dedup dict. -/
def initSources (e : Event) : Event :=
  { e with sources := [e.source] }

/-- The exact-dedup key `(ticker, date, cat_type)`. -/
def keyOf (e : Event) : String × String × String :=
  (e.ticker, e.catalyst_date, e.catalyst_type)

/-- One step of the exact-dedup dict: merge into the entry sharing the key
if it exists (keys in the accumulator are pairwise distinct, so at most
one entry matches), otherwise append with `sources` freshly set. -/
def exactInsert : List Event → Event → List Event
  | [], e => [initSources e]
  | x :: xs, e =>
    if keyOf x = keyOf e then merge_into x e :: xs
    else x :: exactInsert xs e

/-- Second pass of `_merge_and_deduplicate` (lines 1414-1426): group by
`(ticker, date, cat_type)` in a dict, preserving insertion order. -/
def exactPass (l : List Event) : List Event :=
  l.foldl exactInsert []

/-- Inner `j` loop of the near-date pass: the current event `e` absorbs
every later not-yet-used event with the same ticker, a compatible type
and dates within 3 days; absorbed events are removed, and the ongoing
merges update `e` (its catalyst type can be upgraded mid-sweep). -/
def absorb : Event → List Event → Event × List Event
  | e, [] => (e, [])
  | e, x :: xs =>
    if e.ticker = x.ticker ∧
       types_compatible e.catalyst_type x.catalyst_type = true ∧
       date_diff_days e.catalyst_date x.catalyst_date ≤ 3 then
      absorb (merge_into e x) xs
    else
      let r := absorb e xs
      (r.1, x :: r.2)

theorem absorb_snd_length (e : Event) (l : List Event) :
    (absorb e l).2.length ≤ l.length := by
  induction l generalizing e with
  | nil => simp [absorb]
  | cons x xs ih =>
    simp only [absorb]
    split
    · exact Nat.le_succ_of_le (ih _)
    · simpa using ih e

/-- Fuel-indexed outer `i` loop of the near-date pass.  Each round takes
the first remaining event, lets it absorb its near matches, emits it and
continues with the survivors; the fuel (at least the list length, see
`nearPass`) makes the recursion structural, hence kernel-computable. -/
def nearPassAux : Nat → List Event → List Event
  | 0, _ => []
  | _ + 1, [] => []
  | fuel + 1, e :: rest =>
    let r := absorb e rest
    r.1 :: nearPassAux fuel r.2

/-- Third pass of `_merge_and_deduplicate` (lines 1428-1450): the pairwise
near-date sweep over the exact-dedup output. -/
def nearPass (l : List Event) : List Event :=
  nearPassAux l.length l

/-- `_merge_and_deduplicate(all_events)` (fda_calendar.py, lines 1353-1450). -/
def merge_and_deduplicate (l : List Event) : List Event :=
  nearPass (exactPass (validFilter l))

/-! ## Number rendering for the factor strings -/

def digitChar (n : Nat) : Char := Char.ofNat (48 + n)

def natToStrAux : Nat → Nat → List Char
  | 0, _ => []
  | fuel + 1, n =>
    if n < 10 then [digitChar n]
    else natToStrAux fuel (n / 10) ++ [digitChar (n % 10)]

/-- Decimal rendering of a natural number (kernel-computable stand-in for
Python's `str`/format on a non-negative integer). -/
def natToStr (n : Nat) : String := ⟨natToStrAux (n + 1) n⟩

/-- Python `factors[-1] = s`. -/
def replaceLast (l : List String) (s : String) : List String :=
  l.dropLast ++ [s]

/-! ## `_estimate_approval_probability` (fda_calendar.py, lines 1212-1337) -/

def rareIndicators : List String :=
  ["mucopolysaccharidosis", "phenylketonuria", "achondroplasia",
   "leukocyte adhesion", "gaucher", "menkes", "leber",
   "arginase deficiency", "hunter syndrome"]

def establishedDrugsCal : List String :=
  ["keytruda", "opdivo", "dupixent", "darzalex", "palynziq",
   "sarclisa", "filspari", "vyvgart", "inqovi"]

def geneTherapyWords : List String :=
  ["gene therapy", "cell therapy", "autotemcel", "lanparvovec", "lentiviral"]

/-- `_estimate_approval_probability(event)`: approval probability from
historical base rates, used by `get_fda_events` before enrichment. -/
def estimate_approval_probability (e : Event) : ProbResult :=
  let cat_type := e.catalyst_type
  let status := pyLower e.status
  let drug_name := pyLower e.drug_name
  let indication := pyLower e.indication
  let phase := pyLower e.phase
  let full_text := pyLower (drug_name ++ " " ++ indication ++ " " ++ phase ++ " " ++ cat_type)
  let sources := e.sources
  if pyIn "approved" status || pyIn "complete - approved" status then
    ⟨100, "Confirmed", ["FDA approved"]⟩
  else if pyIn "rejected" status || pyIn "crl" (pyLower status) then
    ⟨0, "Confirmed", ["CRL / Rejected"]⟩
  else if cat_type = "CRL" then
    ⟨0, "Confirmed", ["Complete Response Letter issued"]⟩
  else if cat_type = "Approval" then
    ⟨100, "Confirmed", ["Already approved"]⟩
  else if cat_type = "PDUFA" ∨ cat_type = "NDA" ∨ cat_type = "BLA" then
    let p : Int := 85
    let factors := ["NDA/BLA under FDA review (base: 85%)"]
    let conf := "Medium"
    let (p, factors, conf) :=
      if pyIn "sbla" full_text || pyIn "snda" full_text || pyIn "supplemental" full_text then
        ((93 : Int), replaceLast factors "Supplemental application for approved drug (base: 93%)", "High")
      else (p, factors, conf)
    let (p, factors) :=
      if pyIn "orphan" full_text || pyIn "rare disease" full_text || pyIn "ultra-rare" full_text then
        (min (p + 5) 96, factors ++ ["Orphan drug designation (+5%)"])
      else (p, factors)
    let (p, factors) :=
      if rareIndicators.any (fun r => pyIn r full_text) then
        (min (p + 3) 96, factors ++ ["Rare/orphan disease indication (+3%)"])
      else (p, factors)
    let (p, factors) :=
      if pyIn "breakthrough" full_text || pyIn "priority" full_text ||
         pyIn "accelerated" full_text || pyIn "fast track" full_text then
        (min (p + 3) 96, factors ++ ["Priority/breakthrough designation (+3%)"])
      else (p, factors)
    let (p, factors) :=
      if establishedDrugsCal.any (fun d => pyIn d full_text) then
        (min (p + 4) 96, factors ++ ["Established drug (extension) (+4%)"])
      else (p, factors)
    let (p, factors) :=
      if geneTherapyWords.any (fun w => pyIn w full_text) then
        (max (p - 5) 70, factors ++ ["Gene/cell therapy (higher variability, -5%)"])
      else (p, factors)
    let (conf, factors) :=
      if 2 ≤ sources.length then
        ("High", factors ++ ["Confirmed by " ++ natToStr sources.length ++ " sources"])
      else (conf, factors)
    ⟨p, conf, factors⟩
  else if cat_type = "AdCom" then
    ⟨75, "Medium", ["Advisory Committee meeting (base: 75%)"]⟩
  else if cat_type = "Phase3" then
    if pyIn "pivotal" full_text then
      ⟨62, "Low", replaceLast ["Phase 3 trial (historical success: ~58%)"] "Pivotal Phase 3 trial (62%)"⟩
    else
      ⟨58, "Low", ["Phase 3 trial (historical success: ~58%)"]⟩
  else if cat_type = "Phase2" then
    ⟨33, "Low", ["Phase 2 trial (historical success: ~33%)"]⟩
  else if cat_type = "Phase1" then
    ⟨12, "Low", ["Phase 1 trial (historical success: ~12%)"]⟩
  else
    ⟨50, "Low", ["Insufficient data for estimate"]⟩

/-! ## Post-merge processing in `get_fda_events` (fda_calendar.py,
lines 162-191)

The wall clock `datetime.now()` is a day number with a fractional
time-of-day part, embedded as a rational `now`; a parsed catalyst date is
the midnight day number of that date.  `timedelta.days` floors, matching
`Int.floor` on the rational difference. -/

/-- The date-range filter (lines 167-176): an event whose `catalyst_date`
parses is kept only inside `[now - days_back, now + days_forward]`, with
`days_until` set; a `ValueError`/`KeyError` (unparseable or missing date)
keeps the event unconditionally with `days_until = None`. -/
def filterByRange (now : ℚ) (days_back days_forward : Int) (events : List Event) :
    List Event :=
  events.filterMap (fun e =>
    match parseDate e.catalyst_date with
    | some d =>
      if now - (days_back : ℚ) ≤ (d : ℚ) ∧ (d : ℚ) ≤ now + (days_forward : ℚ) then
        some { e with days_until := some ⌊(d : ℚ) - now⌋ }
      else none
    | none => some { e with days_until := none })

/-- Python truthiness-based `x or y` on an optional integer
(`x.get('days_until') or 9999`): `None` and `0` both yield the default. -/
def pyOrInt (x : Option Int) (y : Int) : Int :=
  match x with
  | none => y
  | some d => if d = 0 then y else d

/-- The sort key of line 183: future events first, then by absolute
distance (with `None`/`0` mapped to 9999 by Python truthiness). -/
def sortKey (e : Event) : Nat × Nat :=
  ((match e.days_until with
    | some d => if 0 ≤ d then 0 else 1
    | none => 1),
   (pyOrInt e.days_until 9999).natAbs)

/-- Comparison used for the final stable sort: lexicographic on the key. -/
def sortKeyLe (a b : Event) : Prop :=
  (sortKey a).1 < (sortKey b).1 ∨
  ((sortKey a).1 = (sortKey b).1 ∧ (sortKey a).2 ≤ (sortKey b).2)

instance : DecidableRel sortKeyLe := fun a b => by
  unfold sortKeyLe; infer_instance

/-- Lines 162-191 of `get_fda_events` after the merge: range-filter,
attach the estimated approval probability, and sort. -/
def fdaPostProcess (now : ℚ) (days_back days_forward : Int) (merged : List Event) :
    List Event :=
  let filtered := filterByRange now days_back days_forward merged
  let enriched := filtered.map
    (fun e => { e with approval_probability := some (estimate_approval_probability e) })
  List.insertionSort sortKeyLe enriched

/-! ## Numeric primitives for the scoring engine

Machine floats are embedded as rationals.  The only non-integer constant
in play is the Phase-1 base rate 6.7, and every branch condition compares
against integer or tenth-valued thresholds, so the rational embedding
tracks the float computation faithfully for the properties stated below
(`inf`/`nan` inputs are mapped to a parse failure). -/

/-- Python `int(x)` on a float: truncation toward zero. -/
def pyTrunc (q : ℚ) : Int :=
  if 0 ≤ q then ⌊q⌋ else ⌈q⌉

/-- Python `round(x)` on a float: round half to even. -/
def pyRound (q : ℚ) : Int :=
  let f := ⌊q⌋
  let r := q - (f : ℚ)
  if r < 1/2 then f
  else if 1/2 < r then f + 1
  else if f % 2 = 0 then f else f + 1

def isSpaceChar (c : Char) : Bool :=
  c == ' ' || (9 ≤ c.toNat && c.toNat ≤ 13)

def isAlphaChar (c : Char) : Bool :=
  (65 ≤ c.toNat && c.toNat ≤ 90) || (97 ≤ c.toNat && c.toNat ≤ 122)

/-- Python `s.replace(old, new)` for a one-character `old` (the only form
the scoring code uses: stripping `%` and `,`, expanding `K`/`M`). -/
def pyReplaceChar (c : Char) (repl : String) (s : String) : String :=
  ⟨s.data.flatMap (fun x => if x = c then repl.data else [x])⟩

/-- Python `str.title()`: alphabetic characters are upper-cased at word
starts and lower-cased elsewhere. -/
def pyTitleAux : Bool → List Char → List Char
  | _, [] => []
  | atStart, c :: cs =>
    if isAlphaChar c then
      (if atStart then charUpper c else charLower c) :: pyTitleAux false cs
    else c :: pyTitleAux true cs

def pyTitle (s : String) : String := ⟨pyTitleAux true s.data⟩

/-- Mantissa of a float literal: `digits`, `digits.digits`, `.digits` or
`digits.` (at least one digit overall). -/
def parseMantissa (l : List Char) : Option ℚ :=
  match splitChars '.' l with
  | [ip] =>
    match digitsToNat ip with
    | some n => some (n : ℚ)
    | none => none
  | [ip, fp] =>
    if (ip ≠ [] ∨ fp ≠ []) ∧ ip.all isDigitChar ∧ fp.all isDigitChar then
      some ((ip.foldl (fun a c => 10 * a + (c.toNat - 48)) 0 : ℚ) +
            (fp.foldl (fun a c => 10 * a + (c.toNat - 48)) 0 : ℚ) / (10 : ℚ) ^ fp.length)
    else none
  | _ => none

/-- Unsigned part of Python `float(s)`: mantissa with optional exponent. -/
def parseUnsignedFloat (l : List Char) : Option ℚ :=
  match splitChars 'e' (l.map charLower) with
  | [m] => parseMantissa m
  | [m, ex] =>
    let signedExp : Option Int :=
      match ex with
      | '+' :: d => (digitsToNat d).map (fun n => (n : Int))
      | '-' :: d => (digitsToNat d).map (fun n => -(n : Int))
      | d => (digitsToNat d).map (fun n => (n : Int))
    match parseMantissa m, signedExp with
    | some q, some e =>
      some (if 0 ≤ e then q * (10 : ℚ) ^ e.natAbs else q / (10 : ℚ) ^ e.natAbs)
    | _, _ => none
  | _ => none

/-- Python `float(s)`: strip whitespace, optional sign, decimal literal
with optional exponent; `none` embeds the raised `ValueError` (and the
`TypeError`/`AttributeError` paths caught alongside it). -/
def parseFloat (s : String) : Option ℚ :=
  let l := (s.data.dropWhile isSpaceChar).reverse.dropWhile isSpaceChar |>.reverse
  match l with
  | '+' :: rest => parseUnsignedFloat rest
  | '-' :: rest => (parseUnsignedFloat rest).map (fun q => -q)
  | rest => parseUnsignedFloat rest

/-! ## Format-string rendering

Deterministic models of the `f'…'` renderings used in the audit-trail
factor strings (`{x:.0f}`, `{x:.1f}`, `{x:+d}`, `str` of a float table
constant).  The exact digits are immaterial to every claim below; what
matters is that each is a pure function of its argument. -/

def intToStr (i : Int) : String :=
  if i < 0 then "-" ++ natToStr i.natAbs else natToStr i.natAbs

/-- `{i:+d}`: always-signed integer. -/
def fmtPlusD (i : Int) : String :=
  if i < 0 then "-" ++ natToStr i.natAbs else "+" ++ natToStr i.natAbs

/-- `{q:.0f}`. -/
def fmtF0 (q : ℚ) : String := intToStr (pyRound q)

/-- `{q:.1f}`. -/
def fmtF1 (q : ℚ) : String :=
  let r := pyRound (q * 10)
  (if r < 0 then "-" else "") ++ natToStr (r.natAbs / 10) ++ "." ++ natToStr (r.natAbs % 10)

/-- `{q:+.1f}`. -/
def fmtPlusF1 (q : ℚ) : String :=
  let r := pyRound (q * 10)
  (if r < 0 then "-" else "+") ++ natToStr (r.natAbs / 10) ++ "." ++ natToStr (r.natAbs % 10)

/-- `str(q)` for the tenth-valued non-negative table constants. -/
def fmtTenths (q : ℚ) : String :=
  let m := (q * 10).num.natAbs
  natToStr (m / 10) ++ "." ++ natToStr (m % 10)

/-! ## Reference tables (catalyst_tracker.py, lines 27-133) -/

/-- `LOA_BY_PHASE`: overall likelihood of approval from each stage. -/
def LOA_BY_PHASE : List (String × ℚ) :=
  [("Phase1", 6.7), ("Phase2", 15), ("Phase3", 58),
   ("NDA_BLA", 85), ("sBLA_sNDA", 93), ("AdCom_positive", 75)]

/-- `THERAPEUTIC_AREA_LOA`: success rates by therapeutic area, in dict
insertion order (the lookup breaks at the first contained keyword). -/
def THERAPEUTIC_AREA_LOA : List (String × ℚ) :=
  [("hematology", 18.5), ("blood", 18.5), ("metabolic", 14.0),
   ("endocrine", 14.0), ("diabetes", 14.0), ("musculoskeletal", 13.0),
   ("bone", 13.0), ("immune", 12.0), ("autoimmune", 12.0),
   ("rheumatology", 12.0), ("dermatology", 10.0), ("skin", 10.0),
   ("ophthalmology", 9.5), ("eye", 9.5), ("retinal", 9.5),
   ("respiratory", 4.5), ("lung", 4.5), ("asthma", 4.5),
   ("cardiovascular", 5.0), ("heart", 5.0), ("neurology", 5.5),
   ("cns", 5.5), ("alzheimer", 3.0), ("parkinson", 5.0),
   ("psychiatry", 6.0), ("oncology", 4.7), ("cancer", 4.7),
   ("tumor", 4.7), ("infectious", 5.0), ("infection", 5.0),
   ("antiviral", 5.0), ("rare_disease", 15.0), ("orphan", 15.0),
   ("gastroenterology", 8.0), ("gi", 8.0), ("hepatology", 7.0),
   ("liver", 7.0), ("nephrology", 6.0), ("kidney", 6.0),
   ("urology", 8.0)]

/-- `NDA_APPROVAL_BY_AREA`: late-stage approval rates by area. -/
def NDA_APPROVAL_BY_AREA : List (String × Int) :=
  [("hematology", 92), ("blood", 92), ("metabolic", 88),
   ("rare_disease", 90), ("orphan", 90), ("oncology", 78),
   ("cancer", 78), ("neurology", 80), ("cns", 80),
   ("cardiovascular", 82), ("respiratory", 80), ("infectious", 82),
   ("dermatology", 87), ("ophthalmology", 85), ("gastroenterology", 85),
   ("default", 85)]

/-- `MODALITY_MODIFIERS`: drug-modality adjustments. -/
def MODALITY_MODIFIERS : List (String × Int) :=
  [("antibody", 3), ("monoclonal", 3), ("bispecific", 2), ("adc", 1),
   ("car-t", -2), ("cell therapy", -3), ("gene therapy", -5),
   ("sirna", 1), ("mrna", -2), ("crispr", -5), ("antisense", 0),
   ("peptide", 1), ("protein", 1), ("small molecule", 0)]

/-! ## `_calculate_approval_probability` (catalyst_tracker.py, lines 403-672) -/

def rareIndicatorsTracker : List String :=
  ["mucopolysaccharidosis", "phenylketonuria", "achondroplasia",
   "gaucher", "menkes", "leber", "hunter syndrome", "fabry", "pompe"]

def establishedDrugsTracker : List String :=
  ["keytruda", "opdivo", "dupixent", "darzalex", "palynziq",
   "sarclisa", "filspari", "vyvgart", "inqovi", "sotyktu"]

/-- Layers 1-5 plus the final confidence computation of
`_calculate_approval_probability` — everything between the
already-decided short circuits and the closing clamp/round, as a function
of the fields the source extracts in its preamble (lines 413-421:
`cat_type` and the lower-cased `drug_name`/`indication`/`phase`/
`company`, plus `sources` and `fundamentals`).  Returns the un-clamped
probability, the confidence and the factor trail. -/
def approvalLayersCore (cat_type drug_name indication phase company : String)
    (sources : List String) (fund : List (String × String)) :
    ℚ × String × List String :=
  let full_text := pyLower (drug_name ++ " " ++ indication ++ " " ++ phase ++ " " ++
    cat_type ++ " " ++ company)
  let isDecision := cat_type = "PDUFA" ∨ cat_type = "NDA" ∨ cat_type = "BLA"
  let is_supplemental :=
    ["sbla", "snda", "supplemental", "label expansion"].any (fun w => pyIn w full_text)
  -- Layer 1: phase-based base rate
  let (p, factors, conf) : ℚ × List String × String :=
    if isDecision then
      if is_supplemental then
        (93, ["PoA base: sBLA/sNDA supplemental approval 93% (BIO 2015-2023)"], "High")
      else
        (85, ["PoA base: NDA/BLA first-cycle approval 85% (BIO 2015-2023)"], "Medium")
    else if cat_type = "AdCom" then
      (75, ["PoA base: Advisory Committee → approval 75%"], "Medium")
    else if cat_type = "Phase3" then
      if pyIn "pivotal" full_text then
        (62, replaceLast ["PoA base: Phase 3 → approval 58% (BIO 2015-2023)"]
          "PoA base: pivotal Phase 3 → approval 62%", "Low")
      else (58, ["PoA base: Phase 3 → approval 58% (BIO 2015-2023)"], "Low")
    else if cat_type = "Phase2" then
      (15, ["PoA base: Phase 2 → approval 15% (BIO 2015-2023)"], "Low")
    else if cat_type = "Phase1" then
      (6.7, ["PoA base: Phase 1 → approval 6.7% (BIO 2015-2023)"], "Low")
    else
      (50, ["No specific phase base rate"], "Low")
  -- Layer 2: therapeutic-area modifier (NDA-stage table, break at first hit)
  let (p, factors, area_applied) : ℚ × List String × Bool :=
    if isDecision ∧ ¬is_supplemental then
      match NDA_APPROVAL_BY_AREA.find? (fun kr => kr.1 != "default" && pyIn kr.1 full_text) with
      | some kr =>
        let diff := kr.2 - 85
        if diff ≠ 0 then
          (min (max (p + (diff : ℚ)) 10) 97,
           factors ++ ["Therapeutic area (" ++ pyTitle (pyReplaceChar '_' " " kr.1) ++
             "): NDA approval " ++ intToStr kr.2 ++ "% (" ++ fmtPlusD diff ++ "%)"],
           true)
        else (p, factors, false)
      | none => (p, factors, false)
    else (p, factors, false)
  -- Layer 2 for earlier phases: overall LOA by area
  let (p, factors) : ℚ × List String :=
    if ¬area_applied ∧ (cat_type = "Phase1" ∨ cat_type = "Phase2" ∨ cat_type = "Phase3") then
      match THERAPEUTIC_AREA_LOA.find? (fun kl => pyIn kl.1 full_text) with
      | some kl =>
        let generic_loa := ((LOA_BY_PHASE.find? (fun kv => kv.1 == cat_type)).map Prod.snd).getD 10
        if 0 < generic_loa then
          let ratio := kl.2 / 7
          let modifier := max (-10) (min 10 (pyTrunc ((ratio - 1) * 10)))
          if modifier ≠ 0 then
            (min (max (p + (modifier : ℚ)) 3) 97,
             factors ++ ["Therapeutic area (" ++ pyTitle (pyReplaceChar '_' " " kl.1) ++
               "): LOA " ++ fmtTenths kl.2 ++ "% — " ++
               (if 0 < modifier then "above" else "below") ++ " avg (" ++
               fmtPlusD modifier ++ "%)"])
          else (p, factors)
        else (p, factors)
      | none => (p, factors)
    else (p, factors)
  -- Layer 3: drug-modality modifier (break at first nonzero hit)
  let (p, factors) : ℚ × List String :=
    match MODALITY_MODIFIERS.find? (fun mm => pyIn mm.1 full_text && mm.2 != 0) with
    | some mm =>
      (min (max (p + (mm.2 : ℚ)) 3) 97,
       factors ++ ["Drug modality (" ++ pyTitle (pyReplaceChar '_' " " mm.1) ++ "): " ++
         fmtPlusD mm.2 ++ "%"])
    | none => (p, factors)
  -- Layer 4: FDA designations
  let (p, factors) : ℚ × List String :=
    if pyIn "breakthrough" full_text then
      (min (p + 4) 97, factors ++ ["Breakthrough Therapy designation: +4%"])
    else if pyIn "priority review" full_text || pyIn "priority" full_text then
      (min (p + 3) 97, factors ++ ["Priority Review: +3%"])
    else if pyIn "accelerated approval" full_text || pyIn "accelerated" full_text then
      (min (p + 3) 97, factors ++ ["Accelerated Approval pathway: +3%"])
    else if pyIn "fast track" full_text then
      (min (p + 2) 97, factors ++ ["Fast Track designation: +2%"])
    else (p, factors)
  let (p, factors) : ℚ × List String :=
    if pyIn "orphan" full_text || pyIn "rare disease" full_text || pyIn "ultra-rare" full_text then
      (min (p + 4) 97,
       factors ++ ["Orphan drug designation: +4% (higher approval rate for rare diseases)"])
    else (p, factors)
  let (p, factors) : ℚ × List String :=
    if rareIndicatorsTracker.any (fun r => pyIn r full_text) then
      (min (p + 3) 97, factors ++ ["Rare genetic disease: high unmet need (+3%)"])
    else (p, factors)
  let (p, factors) : ℚ × List String :=
    if establishedDrugsTracker.any (fun d => pyIn d full_text) then
      (min (p + 4) 97, factors ++ ["Established drug — label extension (+4%)"])
    else (p, factors)
  -- Layer 5: market signals from the Finviz fundamentals
  let has := false
  -- analyst target price vs current price
  let (p, factors, has) : ℚ × List String × Bool :=
    match parseFloat (fget fund "target_price" "0"), parseFloat (fget fund "price" "0") with
    | some target, some price =>
      if 0 < target ∧ 0 < price then
        let upside := (target - price) / price * 100
        if 40 ≤ upside then
          (min (p + 5) 97, factors ++ ["Analyst target $" ++ fmtF0 target ++ " (+" ++
            fmtF0 upside ++ "% upside) — bullish (+5%)"], true)
        else if 20 ≤ upside then
          (min (p + 3) 97, factors ++ ["Analyst target $" ++ fmtF0 target ++ " (+" ++
            fmtF0 upside ++ "% upside) (+3%)"], true)
        else if 5 ≤ upside then
          (min (p + 1) 97, factors ++ ["Analyst target $" ++ fmtF0 target ++ " (+" ++
            fmtF0 upside ++ "% upside) (+1%)"], true)
        else if upside < -15 then
          (max (p - 5) 10, factors ++ ["Analyst target $" ++ fmtF0 target ++ " (" ++
            fmtF0 upside ++ "%) — bearish (-5%)"], true)
        else if upside < -5 then
          (max (p - 2) 10, factors ++ ["Analyst target below price (" ++ fmtF0 upside ++
            "%) (-2%)"], true)
        else (p, factors, true)
      else (p, factors, has)
    | _, _ => (p, factors, has)
  -- analyst recommendation (1 = Strong Buy … 5 = Strong Sell)
  let (p, factors, has) : ℚ × List String × Bool :=
    match parseFloat (fget fund "analyst_recom_raw" "0") with
    | some v =>
      if 0 < v then
        if v ≤ 1.5 then
          (min (p + 3) 97, factors ++ ["Analyst consensus: Strong Buy (" ++ fmtF1 v ++
            "/5) (+3%)"], true)
        else if v ≤ 2.2 then
          (min (p + 2) 97, factors ++ ["Analyst consensus: Buy (" ++ fmtF1 v ++
            "/5) (+2%)"], true)
        else if 3.5 ≤ v then
          (max (p - 3) 10, factors ++ ["Analyst consensus: Underperform (" ++ fmtF1 v ++
            "/5) (-3%)"], true)
        else if 3 ≤ v then
          (max (p - 1) 10, factors ++ ["Analyst consensus: Hold (" ++ fmtF1 v ++
            "/5) (-1%)"], true)
        else (p, factors, true)
      else (p, factors, has)
    | none => (p, factors, has)
  -- insider transactions
  let (p, factors, has) : ℚ × List String × Bool :=
    match parseFloat (pyReplaceChar '%' "" (fget fund "insider_trans" "0")) with
    | some v =>
      if v ≠ 0 then
        if 10 < v then
          (min (p + 4) 97, factors ++ ["Insider buying +" ++ fmtF0 v ++
            "% — strong bullish (+4%)"], true)
        else if 2 < v then
          (min (p + 2) 97, factors ++ ["Insider buying +" ++ fmtF0 v ++ "% (+2%)"], true)
        else if v < -15 then
          (max (p - 4) 10, factors ++ ["Heavy insider selling " ++ fmtF0 v ++
            "% (-4%)"], true)
        else if v < -5 then
          (max (p - 2) 10, factors ++ ["Insider selling " ++ fmtF0 v ++ "% (-2%)"], true)
        else (p, factors, true)
      else (p, factors, has)
    | none => (p, factors, has)
  -- institutional flow
  let (p, factors, has) : ℚ × List String × Bool :=
    match parseFloat (pyReplaceChar '%' "" (fget fund "inst_trans" "0")) with
    | some v =>
      if v ≠ 0 then
        if 10 < v then
          (min (p + 3) 97, factors ++ ["Institutions accumulating +" ++ fmtF0 v ++
            "% (+3%)"], true)
        else if 3 < v then
          (min (p + 1) 97, factors ++ ["Institutional buying +" ++ fmtF0 v ++
            "% (+1%)"], true)
        else if v < -10 then
          (max (p - 3) 10, factors ++ ["Institutions exiting " ++ fmtF0 v ++
            "% (-3%)"], true)
        else if v < -3 then
          (max (p - 1) 10, factors ++ ["Institutional selling " ++ fmtF0 v ++
            "% (-1%)"], true)
        else (p, factors, true)
      else (p, factors, has)
    | none => (p, factors, has)
  -- monthly stock performance
  let (p, factors, has) : ℚ × List String × Bool :=
    match parseFloat (pyReplaceChar '%' "" (fget fund "perf_month" "0")) with
    | some v =>
      if 5 ≤ |v| then
        if 20 ≤ v then
          (min (p + 3) 97, factors ++ ["Stock +" ++ fmtF0 v ++
            "% this month — market pricing in approval (+3%)"], true)
        else if 10 ≤ v then
          (min (p + 1) 97, factors ++ ["Stock +" ++ fmtF0 v ++ "% this month (+1%)"], true)
        else if v ≤ -20 then
          (max (p - 4) 10, factors ++ ["Stock " ++ fmtF0 v ++
            "% this month — market concerned (-4%)"], true)
        else if v ≤ -10 then
          (max (p - 2) 10, factors ++ ["Stock " ++ fmtF0 v ++ "% this month (-2%)"], true)
        else (p, factors, true)
      else (p, factors, has)
    | none => (p, factors, has)
  -- final confidence (overwrites the layer-1 value, as in the source)
  let conf :=
    if has ∧ 2 ≤ sources.length then "High"
    else if has ∨ 2 ≤ sources.length then "Medium"
    else
      let _ := conf
      "Low"
  let factors :=
    if 2 ≤ sources.length then
      factors ++ ["Confirmed by " ++ natToStr sources.length ++ " independent sources"]
    else factors
  (p, conf, factors)

/-- The layered computation applied to an event's fields. -/
def approvalLayerResult (e : Event) : ℚ × String × List String :=
  approvalLayersCore e.catalyst_type (pyLower e.drug_name) (pyLower e.indication)
    (pyLower e.phase) (pyLower e.company) e.sources e.fundamentals

/-- Body of `_calculate_approval_probability` over the extracted fields:
short-circuit the already-decided outcomes, otherwise run the five layers
and clamp/round the probability into `[3, 97]`. -/
def approvalOutcome (cat_type status drug_name indication phase company : String)
    (sources : List String) (fund : List (String × String)) : ProbResult :=
  if pyIn "approved" status || pyIn "complete - approved" status then
    ⟨100, "Confirmed", ["FDA approved"]⟩
  else if pyIn "rejected" status || pyIn "crl" status then
    ⟨0, "Confirmed", ["CRL / Rejected"]⟩
  else if cat_type = "CRL" then
    ⟨0, "Confirmed", ["Complete Response Letter issued"]⟩
  else if cat_type = "Approval" then
    ⟨100, "Confirmed", ["Already approved"]⟩
  else
    let r := approvalLayersCore cat_type drug_name indication phase company sources fund
    ⟨pyRound (min (max r.1 3) 97), r.2.1, r.2.2⟩

/-- `_calculate_approval_probability(event)` (catalyst_tracker.py,
lines 403-672). -/
def calculate_approval_probability (e : Event) : ProbResult :=
  approvalOutcome e.catalyst_type (pyLower e.status) (pyLower e.drug_name)
    (pyLower e.indication) (pyLower e.phase) (pyLower e.company)
    e.sources e.fundamentals

/-! ## `_calculate_catalyst_score` (catalyst_tracker.py, lines 674-911) -/

/-- Catalyst-type importance bonus (line 894). -/
def typeBonus (t : String) : Int :=
  if t = "PDUFA" then 5
  else if t = "Approval" then 4
  else if t = "AdCom" then 4
  else if t = "NDA" then 3
  else if t = "BLA" then 3
  else if t = "CRL" then 3
  else 0

/-- The six scoring buckets of `_calculate_catalyst_score` — everything
before the final clamp, as a function of the fields the source reads
(`days_until`, `fundamentals`, `sources`, `catalyst_type`).  Returns the
raw score and the factor list. -/
def catalystScoreCore (days_until : Option Int) (fund : List (String × String))
    (srcs : List String) (cat_type : String) : Int × List String :=
  -- 1. timing
  let (score, factors) : Int × List String :=
    match days_until with
    | some days =>
      if days = 0 then (20, ["Catalyst TODAY (+20)"])
      else if 1 ≤ days ∧ days ≤ 3 then
        (18, ["Catalyst in " ++ intToStr days ++ "d — imminent (+18)"])
      else if 4 ≤ days ∧ days ≤ 7 then (15, ["Catalyst this week (+15)"])
      else if 8 ≤ days ∧ days ≤ 14 then (12, ["Catalyst in ~2 weeks (+12)"])
      else if 15 ≤ days ∧ days ≤ 30 then (8, ["Catalyst this month (+8)"])
      else if 31 ≤ days ∧ days ≤ 60 then (4, ["Catalyst in " ++ intToStr days ++ "d (+4)"])
      else if days < 0 then (max 0 (3 - (days.natAbs / 7 : Nat)), [])
      else (0, [])
    | none => (2, [])
  -- 2. volatility: ATR
  let (score, factors) : Int × List String :=
    match parseFloat (fget fund "atr" ""), parseFloat (fget fund "price" "") with
    | some atr, some price =>
      if 0 < price then
        let atr_pct := atr / price * 100
        if 5 ≤ atr_pct then
          (score + 8, factors ++ ["High ATR " ++ fmtF1 atr_pct ++ "% — volatile (+8)"])
        else if 3 ≤ atr_pct then (score + 6, factors ++ ["ATR " ++ fmtF1 atr_pct ++ "% (+6)"])
        else if 2 ≤ atr_pct then (score + 4, factors ++ ["ATR " ++ fmtF1 atr_pct ++ "% (+4)"])
        else if 1 ≤ atr_pct then (score + 2, factors)
        else (score, factors)
      else (score, factors)
    | _, _ => (score, factors)
  -- beta
  let (score, factors) : Int × List String :=
    match parseFloat (fget fund "beta" "") with
    | some beta =>
      if 2 ≤ beta then (score + 4, factors ++ ["High beta " ++ fmtF1 beta ++ " (+4)"])
      else if 1.5 ≤ beta then (score + 3, factors)
      else if 1 ≤ beta then (score + 1, factors)
      else (score, factors)
    | none => (score, factors)
  -- short float
  let (score, factors) : Int × List String :=
    match parseFloat (pyReplaceChar '%' "" (fget fund "short_float" "")) with
    | some sf =>
      if 20 ≤ sf then
        (score + 8, factors ++ ["Short squeeze setup: " ++ fmtF0 sf ++ "% short (+8)"])
      else if 15 ≤ sf then
        (score + 6, factors ++ ["High short interest: " ++ fmtF0 sf ++ "% (+6)"])
      else if 10 ≤ sf then
        (score + 4, factors ++ ["Elevated short: " ++ fmtF0 sf ++ "% (+4)"])
      else if 5 ≤ sf then (score + 2, factors)
      else (score, factors)
    | none => (score, factors)
  -- 3. volume and liquidity
  let (score, factors) : Int × List String :=
    match parseFloat (fget fund "rel_volume" "") with
    | some rv =>
      if 3 ≤ rv then (score + 8, factors ++ ["Unusual volume " ++ fmtF1 rv ++ "x (+8)"])
      else if 2 ≤ rv then (score + 6, factors ++ ["Volume surge " ++ fmtF1 rv ++ "x (+6)"])
      else if 1.5 ≤ rv then
        (score + 4, factors ++ ["Above-avg volume " ++ fmtF1 rv ++ "x (+4)"])
      else if 1 ≤ rv then (score + 2, factors)
      else (score, factors)
    | none => (score, factors)
  -- average volume
  let (score, factors) : Int × List String :=
    match parseFloat (pyReplaceChar 'M' "000000" (pyReplaceChar 'K' "000"
        (pyReplaceChar ',' "" (fget fund "avg_volume" "")))) with
    | some av =>
      if 2000000 ≤ av then (score + 5, factors ++ ["High liquidity 2M+ avg vol (+5)"])
      else if 500000 ≤ av then (score + 4, factors ++ ["Good liquidity (+4)"])
      else if 100000 ≤ av then (score + 2, factors)
      else (score, factors ++ ["Low liquidity — caution"])
    | none => (score, factors)
  -- pre-market gap
  let (score, factors) : Int × List String :=
    match parseFloat (pyReplaceChar '%' "" (fget fund "gap_pct" "")) with
    | some g =>
      if 5 ≤ |g| then
        (score + 2, factors ++ ["Gap " ++ fget fund "gap_pct" "" ++ " pre-market (+2)"])
      else (score, factors)
    | none => (score, factors)
  -- 4. institutional ownership
  let (score, factors) : Int × List String :=
    match parseFloat (pyReplaceChar '%' "" (fget fund "inst_own" "")) with
    | some io =>
      if 80 ≤ io then
        (score + 6, factors ++ ["Strong inst. ownership " ++ fmtF0 io ++ "% (+6)"])
      else if 50 ≤ io then
        (score + 4, factors ++ ["Inst. ownership " ++ fmtF0 io ++ "% (+4)"])
      else if 20 ≤ io then (score + 2, factors)
      else (score, factors)
    | none => (score, factors)
  -- insider transactions
  let (score, factors) : Int × List String :=
    match parseFloat (pyReplaceChar '%' "" (fget fund "insider_trans" "")) with
    | some it =>
      if 5 < it then (score + 5, factors ++ ["Insider BUYING +" ++ fmtF0 it ++ "% (+5)"])
      else if 0 < it then
        (score + 3, factors ++ ["Insider buying +" ++ fmtF0 it ++ "% (+3)"])
      else if it < -10 then
        (score - 2, factors ++ ["Insider selling " ++ fmtF0 it ++ "% (-2)"])
      else (score, factors)
    | none => (score, factors)
  -- institutional transactions
  let (score, factors) : Int × List String :=
    match parseFloat (pyReplaceChar '%' "" (fget fund "inst_trans" "")) with
    | some imt =>
      if 5 < imt then
        (score + 4, factors ++ ["Institutions accumulating +" ++ fmtF0 imt ++ "% (+4)"])
      else if 0 < imt then (score + 2, factors)
      else if imt < -5 then
        (score - 1, factors ++ ["Institutions reducing " ++ fmtF0 imt ++ "% (-1)"])
      else (score, factors)
    | none => (score, factors)
  -- 5. analyst consensus
  let (score, factors) : Int × List String :=
    match parseFloat (fget fund "analyst_recom_raw" "") with
    | some v =>
      if v ≤ 1.5 then
        (score + 8, factors ++ ["Analyst: Strong Buy (" ++ fmtF1 v ++ ") (+8)"])
      else if v ≤ 2 then
        (score + 6, factors ++ ["Analyst: Buy (" ++ fmtF1 v ++ ") (+6)"])
      else if v ≤ 2.5 then
        (score + 4, factors ++ ["Analyst: Outperform (" ++ fmtF1 v ++ ") (+4)"])
      else if v ≤ 3 then (score + 2, factors)
      else if 3.5 < v then
        (score - 2, factors ++ ["Analyst: Underperform (" ++ fmtF1 v ++ ") (-2)"])
      else (score, factors)
    | none =>
      -- `ValueError` fallback to the textual recommendation
      let recom := fget fund "analyst_recom" ""
      if pyIn "Strong Buy" recom then (score + 8, factors)
      else if pyIn "Buy" recom then (score + 6, factors)
      else if pyIn "Hold" recom then (score + 2, factors)
      else (score, factors)
  -- target price upside
  let (score, factors) : Int × List String :=
    match parseFloat (fget fund "target_price" "0"), parseFloat (fget fund "price" "0") with
    | some target, some price =>
      if 0 < target ∧ 0 < price then
        let upside := (target - price) / price * 100
        if 30 ≤ upside then
          (score + 7, factors ++ ["Target $" ++ fmtF0 target ++ " — " ++ fmtF0 upside ++
            "% upside (+7)"])
        else if 15 ≤ upside then
          (score + 5, factors ++ ["Target $" ++ fmtF0 target ++ " — " ++ fmtF0 upside ++
            "% upside (+5)"])
        else if 5 ≤ upside then
          (score + 3, factors ++ ["Target $" ++ fmtF0 target ++ " — " ++ fmtF0 upside ++
            "% upside (+3)"])
        else if upside < -10 then
          (score - 2, factors ++ ["Target $" ++ fmtF0 target ++ " — " ++ fmtF0 |upside| ++
            "% downside (-2)"])
        else (score, factors)
      else (score, factors)
    | _, _ => (score, factors)
  -- 6. multi-source confirmation
  let (score, factors) : Int × List String :=
    if 3 ≤ srcs.length then
      (score + 6, factors ++ ["Confirmed by " ++ natToStr srcs.length ++
        " independent sources (+6)"])
    else if 2 ≤ srcs.length then
      (score + 4, factors ++ ["Confirmed by " ++ natToStr srcs.length ++
        " sources (+4)"])
    else (score + 1, factors)
  -- catalyst-type importance
  let score := if typeBonus cat_type ≠ 0 then score + typeBonus cat_type else score
  -- momentum into the catalyst
  let (score, factors) : Int × List String :=
    match parseFloat (pyReplaceChar '%' "" (fget fund "perf_week" "")) with
    | some pw =>
      if 10 ≤ |pw| then
        (score + 4, factors ++ ["Week perf " ++ fmtPlusF1 pw ++ "% — active (+4)"])
      else if 5 ≤ |pw| then (score + 2, factors)
      else (score, factors)
    | none => (score, factors)
  (score, factors)

/-- `_calculate_catalyst_score(event)` (catalyst_tracker.py, lines
674-911): the 0-100 trading-opportunity score, together with the
`score_factors` audit list the source writes back onto the event; the
final line clamps the bucket sum into `[0, 100]`. -/
def calculate_catalyst_score (e : Event) : Int × List String :=
  let r := catalystScoreCore e.days_until e.fundamentals e.sources e.catalyst_type
  (max 0 (min 100 r.1), r.2)

/-! ## The bounded collector of `get_fda_events` (fda_calendar.py,
lines 140-160)

`asyncio.gather(*tasks, return_exceptions=True)` delivers, per scraper,
either its event list or the exception it raised (embedded as `Except`
with the exception message).  The collection loop keeps the lists and
drops the exceptions; no adapter failure escapes it. -/

/-- The `for i, result in enumerate(results)` accumulation loop: extend
with each successful scraper's events, skip each exception. -/
def collectEvents (results : List (Except String (List Event))) : List Event :=
  results.foldl
    (fun acc r =>
      match r with
      | .ok l => acc ++ l
      | .error _ => acc)
    []

/-! ## The single-flight cache of `get_catalyst_events`
(catalyst_tracker.py, lines 165-249)

`get_catalyst_events` runs under asyncio's cooperative scheduler: code
between two `await` points executes atomically.  The reachable
configurations of any number of concurrent callers are modelled by a
step relation whose atomic transitions are exactly the code paths
between suspension points:

* `hitFresh` — lines 170-172: the cache is truthy and fresh, return it;
* `hitLocked` — lines 174-179: `lock.locked()` holds, return the stale
  cache if truthy, else `[]`, without touching the lock;
* `acquire` — lines 181-192: the lock is free; `Lock.acquire` on an
  uncontended asyncio lock does not yield, so the freshness double-check
  re-reads the same state and is already known false; the caller enters
  the pipeline computation (`await asyncio.wait_for(...)`);
* `finish` — lines 227-240: store the new value, stamp `computed_at`
  with the current clock, release the lock, return the value;
* `fail` — lines 242-249: `TimeoutError` or any exception: leave the
  cache and its timestamp untouched, release the lock, return
  `self._fda_cache or []`;
* `tick` — the wall clock advances.

The value `None` and the empty list are both falsy for
`if self._fda_cache`, which `truthyCache` mirrors. -/

inductive CallerPhase where
  | start
  | computing
  | done (res : List Event)
  deriving DecidableEq, Repr

structure SysState where
  cache : Option (List Event)
  cacheTime : ℚ
  lockHolder : Option Nat
  time : ℚ
  caller : Nat → CallerPhase

/-- `COMBINED_CACHE_TTL = 300`. -/
def COMBINED_CACHE_TTL : ℚ := 300

/-- Python truthiness of `self._fda_cache` (`None` and `[]` are falsy). -/
def truthyCache : Option (List Event) → Bool
  | none => false
  | some l => !l.isEmpty

/-- `self._fda_cache or []`. -/
def cacheValue (c : Option (List Event)) : List Event := c.getD []

/-- Freshness test of lines 171 and 184:
`self._fda_cache and (now - self._fda_cache_time) < COMBINED_CACHE_TTL`. -/
def cacheFresh (s : SysState) : Prop :=
  truthyCache s.cache = true ∧ s.time - s.cacheTime < COMBINED_CACHE_TTL

instance : DecidablePred cacheFresh := fun s => by
  unfold cacheFresh; infer_instance

/-- Transition labels: which caller moves, and how. -/
inductive Act where
  | tick (dt : ℚ)
  | hitFresh (i : Nat)
  | hitLocked (i : Nat)
  | acquire (i : Nat)
  | finish (i : Nat) (v : List Event)
  | fail (i : Nat)

/-- One atomic step of the system of concurrent `get_catalyst_events`
callers. -/
inductive Step : SysState → Act → SysState → Prop where
  | tick {s : SysState} {dt : ℚ} (hdt : 0 ≤ dt) :
      Step s (.tick dt) { s with time := s.time + dt }
  | hitFresh {s : SysState} {i : Nat}
      (hc : s.caller i = .start) (hf : cacheFresh s) :
      Step s (.hitFresh i)
        { s with caller := Function.update s.caller i (.done (cacheValue s.cache)) }
  | hitLocked {s : SysState} {i j : Nat}
      (hc : s.caller i = .start) (hf : ¬ cacheFresh s) (hl : s.lockHolder = some j) :
      Step s (.hitLocked i)
        { s with caller := Function.update s.caller i (.done (cacheValue s.cache)) }
  | acquire {s : SysState} {i : Nat}
      (hc : s.caller i = .start) (hf : ¬ cacheFresh s) (hl : s.lockHolder = none) :
      Step s (.acquire i)
        { s with lockHolder := some i,
                 caller := Function.update s.caller i .computing }
  | finish {s : SysState} {i : Nat} {v : List Event}
      (hc : s.caller i = .computing) :
      Step s (.finish i v)
        { s with cache := some v, cacheTime := s.time, lockHolder := none,
                 caller := Function.update s.caller i (.done v) }
  | fail {s : SysState} {i : Nat}
      (hc : s.caller i = .computing) :
      Step s (.fail i)
        { s with lockHolder := none,
                 caller := Function.update s.caller i (.done (cacheValue s.cache)) }

/-- The initial state: empty cache, free lock, all callers at the entry. -/
def initSys : SysState :=
  { cache := none, cacheTime := 0, lockHolder := none, time := 0,
    caller := fun _ => .start }

/-- States reachable from the initial state. -/
inductive Reaches : SysState → Prop where
  | init : Reaches initSys
  | step {s s' : SysState} {a : Act} : Reaches s → Step s a s' → Reaches s'

/-- The single-flight invariant: a caller inside the pipeline computation
holds the per-key lock. -/
def LockInv (s : SysState) : Prop :=
  ∀ i, s.caller i = .computing → s.lockHolder = some i

/-!
# Theorems
-/

/-! ## Collection (C6) -/

theorem collectEvents_foldl (rs : List (Except String (List Event)))
    (acc : List Event) :
    rs.foldl
      (fun acc r =>
        match r with
        | .ok l => acc ++ l
        | .error _ => acc)
      acc = acc ++ ((rs.filterMap Except.toOption).flatten) := by
  induction rs generalizing acc with
  | nil => simp
  | cons r rs ih =>
    cases r with
    | ok l => simp [List.foldl_cons, ih, Except.toOption]
    | error msg => simp [List.foldl_cons, ih, Except.toOption]

/-- C6: for every combination of per-scraper outcomes, the collection
loop of `get_fda_events` returns exactly the concatenation of the
successful scrapers' event lists, in scraper order; exceptions contribute
nothing, and — by the very type of `collectEvents` — no scraper exception
propagates to the caller. -/
theorem collect_tolerates_failures (results : List (Except String (List Event))) :
    collectEvents results = (results.filterMap Except.toOption).flatten := by
  simpa using collectEvents_foldl results []

/-! ## The single-flight cache (C4, C5) -/

theorem reaches_lockInv {s : SysState} (h : Reaches s) : LockInv s := by
  induction h with
  | init => intro i hi; simp [initSys] at hi
  | step _ hs ih =>
    cases hs with
    | tick hdt =>
      intro k hk
      exact ih k hk
    | hitFresh hc hf =>
      intro k hk
      simp only [Function.update_apply] at hk
      split at hk
      · cases hk
      · exact ih k hk
    | hitLocked hc hf hl =>
      intro k hk
      simp only [Function.update_apply] at hk
      split at hk
      · cases hk
      · exact ih k hk
    | acquire hc hf hl =>
      intro k hk
      simp only [Function.update_apply] at hk
      split at hk
      · rename_i hki; subst hki; rfl
      · have h1 := ih k hk
        rw [hl] at h1
        cases h1
    | finish hc =>
      rename_i i _
      intro k hk
      simp only [Function.update_apply] at hk
      split at hk
      · cases hk
      · rename_i hki
        have h1 := ih k hk
        have h2 := ih i hc
        rw [h2] at h1
        injection h1 with h3
        exact absurd h3.symm hki
    | fail hc =>
      rename_i i
      intro k hk
      simp only [Function.update_apply] at hk
      split at hk
      · cases hk
      · rename_i hki
        have h1 := ih k hk
        have h2 := ih i hc
        rw [h2] at h1
        injection h1 with h3
        exact absurd h3.symm hki

/-- C4: single-flight correctness.  (1) In every reachable configuration
at most one caller is inside the pipeline computation.  (2) A caller that
arrives while the lock is held finishes immediately in one atomic step
with the previously cached value (`[]` when none exists), changing
neither the cache, nor the lock, nor any other caller — in particular it
neither blocks nor starts a duplicate computation. -/
theorem single_flight_correct :
    (∀ s : SysState, Reaches s → ∀ i j : Nat,
      s.caller i = CallerPhase.computing → s.caller j = CallerPhase.computing → i = j) ∧
    (∀ (s s' : SysState) (i : Nat), Step s (.hitLocked i) s' →
      s'.caller i = CallerPhase.done (cacheValue s.cache) ∧
      s'.cache = s.cache ∧ s'.lockHolder = s.lockHolder ∧
      (s.cache = none → s'.caller i = CallerPhase.done []) ∧
      ∀ j, j ≠ i → s'.caller j = s.caller j) := by
  constructor
  · intro s hs i j hi hj
    have h1 := reaches_lockInv hs i hi
    have h2 := reaches_lockInv hs j hj
    rw [h1] at h2
    exact (Option.some_injective _ h2)
  · intro s s' i h
    cases h with
    | hitLocked hc hf hl =>
      refine ⟨Function.update_same _ _ _, rfl, rfl, ?_, ?_⟩
      · intro h0
        show Function.update _ i _ i = _
        rw [Function.update_same, h0]
        rfl
      · intro j hj
        exact Function.update_noteq hj _ _

/-- C5: a failed computation (timeout or exception) releases the lock,
leaves both the cached value and its timestamp untouched, and hands the
failing caller the previous cache (the empty list when none exists). -/
theorem failed_compute_preserves_cache :
    ∀ (s s' : SysState) (i : Nat), Step s (.fail i) s' →
      s'.cache = s.cache ∧ s'.cacheTime = s.cacheTime ∧
      s'.caller i = CallerPhase.done (cacheValue s.cache) ∧
      (s.cache = none → s'.caller i = CallerPhase.done []) := by
  intro s s' i h
  cases h with
  | fail hc =>
    refine ⟨rfl, rfl, Function.update_same _ _ _, ?_⟩
    intro h0
    show Function.update _ i _ i = _
    rw [Function.update_same, h0]
    rfl

/-! Concrete executions used by the witnesses of C4 and C5. -/

/-- The state after caller 0 acquires the lock from the initial state. -/
def sys1 : SysState :=
  { initSys with lockHolder := some 0,
                 caller := Function.update initSys.caller 0 .computing }

/-- Caller 1 then hits the held lock with an empty cache. -/
def sys2 : SysState :=
  { sys1 with caller := Function.update sys1.caller 1 (.done (cacheValue sys1.cache)) }

/-- Caller 0's computation then fails. -/
def sys3 : SysState :=
  { sys1 with lockHolder := none,
              caller := Function.update sys1.caller 0 (.done (cacheValue sys1.cache)) }

theorem step_init_sys1 : Step initSys (.acquire 0) sys1 :=
  Step.acquire rfl (by simp [cacheFresh, initSys, truthyCache]) rfl

theorem reach_sys1 : Reaches sys1 :=
  Reaches.step Reaches.init step_init_sys1

theorem step_sys1_sys2 : Step sys1 (.hitLocked 1) sys2 :=
  Step.hitLocked (j := 0) (by simp [sys1, initSys])
    (by simp [cacheFresh, sys1, initSys, truthyCache]) rfl

theorem step_sys1_sys3 : Step sys1 (.fail 0) sys3 :=
  Step.fail (by simp [sys1, initSys])

theorem single_flight_witness :
    sys1.caller 0 = CallerPhase.computing ∧ (0 : Nat) = 0 ∧
    sys2.caller 1 = CallerPhase.done [] :=
  ⟨by simp [sys1, initSys],
   single_flight_correct.1 sys1 reach_sys1 0 0 (by simp [sys1, initSys])
     (by simp [sys1, initSys]),
   (single_flight_correct.2 sys1 sys2 1 step_sys1_sys2).2.2.2.1 rfl⟩

theorem failed_compute_witness :
    sys3.cache = sys1.cache ∧ sys3.cacheTime = sys1.cacheTime ∧
    sys3.caller 0 = CallerPhase.done [] :=
  ⟨(failed_compute_preserves_cache sys1 sys3 0 step_sys1_sys3).1,
   (failed_compute_preserves_cache sys1 sys3 0 step_sys1_sys3).2.1,
   (failed_compute_preserves_cache sys1 sys3 0 step_sys1_sys3).2.2.2 rfl⟩

/-! ## Score bounds (C7) -/

theorem pyRound_ge {a : Int} {q : ℚ} (h : (a : ℚ) ≤ q) : a ≤ pyRound q := by
  have hf : a ≤ ⌊q⌋ := Int.le_floor.mpr h
  show a ≤ if q - (⌊q⌋ : ℚ) < 1/2 then ⌊q⌋
    else if 1/2 < q - (⌊q⌋ : ℚ) then ⌊q⌋ + 1
    else if ⌊q⌋ % 2 = 0 then ⌊q⌋ else ⌊q⌋ + 1
  split_ifs <;> omega

theorem pyRound_le {b : Int} {q : ℚ} (h : q ≤ (b : ℚ)) : pyRound q ≤ b := by
  have hf : ⌊q⌋ ≤ b := by
    have := Int.floor_le_floor h
    simpa using this
  show (if q - (⌊q⌋ : ℚ) < 1/2 then ⌊q⌋
    else if 1/2 < q - (⌊q⌋ : ℚ) then ⌊q⌋ + 1
    else if ⌊q⌋ % 2 = 0 then ⌊q⌋ else ⌊q⌋ + 1) ≤ b
  split_ifs with h1 h2 h3
  · exact hf
  · -- the fraction exceeds 1/2, so q lies strictly above its floor
    rcases eq_or_lt_of_le hf with he | hl
    · exfalso
      have hq : q ≤ (⌊q⌋ : ℚ) := by rw [he]; exact_mod_cast h
      have := Int.floor_le q
      nlinarith
    · omega
  · exact hf
  · -- the fraction equals 1/2 exactly, so again q > ⌊q⌋
    rcases eq_or_lt_of_le hf with he | hl
    · exfalso
      have hq : q ≤ (⌊q⌋ : ℚ) := by rw [he]; exact_mod_cast h
      have h12 : q - (⌊q⌋ : ℚ) = 1/2 := le_antisymm (not_lt.mp h2) (not_lt.mp h1)
      nlinarith
    · omega

theorem clamped_prob_bounds (x : ℚ) :
    0 ≤ pyRound (min (max x 3) 97) ∧ pyRound (min (max x 3) 97) ≤ 100 := by
  have hq3 : (3 : ℚ) ≤ min (max x 3) 97 := le_min (le_max_right _ _) (by norm_num)
  have hq97 : min (max x 3) 97 ≤ 97 := min_le_right _ _
  have hlo := pyRound_ge (a := 3) (by exact_mod_cast hq3)
  have hhi := pyRound_le (b := 97) (by exact_mod_cast hq97)
  exact ⟨by omega, by omega⟩

theorem approvalOutcome_bounds (ct st dn ind ph co : String)
    (srcs : List String) (fund : List (String × String)) :
    0 ≤ (approvalOutcome ct st dn ind ph co srcs fund).probability ∧
    (approvalOutcome ct st dn ind ph co srcs fund).probability ≤ 100 := by
  unfold approvalOutcome
  simp only [Bool.or_eq_true]
  by_cases h1 : pyIn "approved" st = true ∨ pyIn "complete - approved" st = true
  · rw [if_pos h1]; exact ⟨by norm_num, by norm_num⟩
  · rw [if_neg h1]
    by_cases h2 : pyIn "rejected" st = true ∨ pyIn "crl" st = true
    · rw [if_pos h2]; exact ⟨by norm_num, by norm_num⟩
    · rw [if_neg h2]
      by_cases h3 : ct = "CRL"
      · rw [if_pos h3]; exact ⟨by norm_num, by norm_num⟩
      · rw [if_neg h3]
        by_cases h4 : ct = "Approval"
        · rw [if_pos h4]; exact ⟨by norm_num, by norm_num⟩
        · rw [if_neg h4]
          exact ⟨(clamped_prob_bounds _).1, (clamped_prob_bounds _).2⟩

/-- C7: for every event — any field values, any malformed fundamentals
strings — the computed outcome probability lies in `[0, 100]` and the
trading score lies in `[0, 100]`.  The short-circuit branches return 0 or
100 directly; every other path ends in the clamp into `[3, 97]`
(probability) or `[0, 100]` (score). -/
theorem score_bounds (e : Event) :
    (0 ≤ (calculate_approval_probability e).probability ∧
     (calculate_approval_probability e).probability ≤ 100) ∧
    (0 ≤ (calculate_catalyst_score e).1 ∧ (calculate_catalyst_score e).1 ≤ 100) := by
  refine ⟨approvalOutcome_bounds _ _ _ _ _ _ _ _, ?_, ?_⟩
  · show (0 : Int) ≤
      max 0 (min 100 (catalystScoreCore e.days_until e.fundamentals e.sources e.catalyst_type).1)
    exact le_max_left _ _
  · show max 0 (min 100 (catalystScoreCore e.days_until e.fundamentals e.sources e.catalyst_type).1) ≤ 100
    exact max_le (by norm_num) (min_le_left _ _)

/-! ## Confirmed short-circuits (C8) -/

theorem startsWithChars_iff : ∀ (l n : List Char), startsWithChars l n = true ↔ n <+: l
  | _, [] => by simp [startsWithChars]
  | [], _ :: _ => by simp [startsWithChars]
  | a :: as, b :: bs => by
    rw [startsWithChars]
    simp only [Bool.and_eq_true, beq_iff_eq, List.cons_prefix_cons,
      startsWithChars_iff as bs]
    exact and_congr_left (fun _ => eq_comm)

theorem containsChars_iff : ∀ (h n : List Char), containsChars h n = true ↔ n <:+: h
  | [], n => by simp [containsChars, List.isEmpty_iff]
  | c :: t, n => by
    rw [containsChars]
    simp only [Bool.or_eq_true, startsWithChars_iff, containsChars_iff t n,
      List.infix_cons_iff]

/-- Substring containment composes: if `a` occurs in `b` and `b` occurs
in `s`, then `a` occurs in `s`. -/
theorem pyIn_trans {a b s : String} (h1 : pyIn a b = true) (h2 : pyIn b s = true) :
    pyIn a s = true := by
  rw [pyIn, containsChars_iff] at h1 h2 ⊢
  exact h1.trans h2

/-- A status that reads as approved and as rejected at the same time. -/
def eC8 : Event := { status := "Approved then Rejected", catalyst_type := "CRL" }

/-- C8 counterexample: `eC8.status` contains "rejected"
(case-insensitively) and the catalyst type is CRL, yet the probability
computed is 100, not 0 — the "approved" short-circuit fires first. -/
theorem confirmed_short_circuit_counterexample :
    pyIn "rejected" (pyLower eC8.status) = true ∧ eC8.catalyst_type = "CRL" ∧
    (calculate_approval_probability eC8).probability = 100 := by decide

/-- C8 amended: a status containing "approved" (case-insensitively)
yields probability 100 with confidence Confirmed regardless of every
other field; a status containing "rejected" or "crl" yields 0/Confirmed
provided the status does not also contain "approved"; catalyst type CRL
yields 0/Confirmed provided the status contains none of the three
keywords.  (The source checks the branches in exactly this order.) -/
theorem confirmed_short_circuit (e : Event) :
    (pyIn "approved" (pyLower e.status) = true →
      calculate_approval_probability e =
        ⟨100, "Confirmed", ["FDA approved"]⟩) ∧
    (pyIn "approved" (pyLower e.status) = false →
      pyIn "rejected" (pyLower e.status) = true ∨ pyIn "crl" (pyLower e.status) = true →
      calculate_approval_probability e = ⟨0, "Confirmed", ["CRL / Rejected"]⟩) ∧
    (pyIn "approved" (pyLower e.status) = false →
      pyIn "rejected" (pyLower e.status) = false →
      pyIn "crl" (pyLower e.status) = false →
      e.catalyst_type = "CRL" →
      calculate_approval_probability e =
        ⟨0, "Confirmed", ["Complete Response Letter issued"]⟩) := by
  have hsub : ∀ st : String, pyIn "approved" st = false →
      pyIn "complete - approved" st = false := by
    intro st h
    cases hb : pyIn "complete - approved" st with
    | false => rfl
    | true =>
      have := pyIn_trans (show pyIn "approved" "complete - approved" = true by decide) hb
      rw [h] at this
      cases this
  refine ⟨?_, ?_, ?_⟩
  · intro h
    unfold calculate_approval_probability approvalOutcome
    simp only [Bool.or_eq_true]
    rw [if_pos (Or.inl h)]
  · intro h hrc
    unfold calculate_approval_probability approvalOutcome
    simp only [Bool.or_eq_true]
    rw [if_neg, if_pos hrc]
    rintro (h1 | h1)
    · rw [h] at h1; cases h1
    · rw [hsub _ h] at h1; cases h1
  · intro h hr hc hty
    unfold calculate_approval_probability approvalOutcome
    simp only [Bool.or_eq_true]
    rw [if_neg, if_neg, if_pos hty]
    · rintro (h1 | h1)
      · rw [hr] at h1; cases h1
      · rw [hc] at h1; cases h1
    · rintro (h1 | h1)
      · rw [h] at h1; cases h1
      · rw [hsub _ h] at h1; cases h1

/-- A plainly rejected event, used to instantiate C8's amended claim. -/
def eC8w : Event := { status := "Rejected" }

theorem confirmed_short_circuit_witness :
    calculate_approval_probability eC8w =
      ⟨0, "Confirmed", ["CRL / Rejected"]⟩ :=
  (confirmed_short_circuit eC8w).2.1 (by decide) (Or.inl (by decide))

/-! ## Determinism of the scoring engine (C9) -/

/-- C9: both scoring functions are pure functions of the fields they
read.  Two events agreeing on `company`, `drug_name`, `indication`,
`catalyst_type`, `phase`, `status`, `sources`, `days_until` and
`fundamentals` — whatever their remaining fields (`ticker`,
`catalyst_date`, `source`, `extra`, …) — receive byte-for-byte identical
probability results (value, confidence and factor strings) and identical
score/score-factor pairs. -/
theorem scoring_deterministic (e1 e2 : Event)
    (h1 : e1.company = e2.company) (h2 : e1.drug_name = e2.drug_name)
    (h3 : e1.indication = e2.indication) (h4 : e1.catalyst_type = e2.catalyst_type)
    (h5 : e1.phase = e2.phase) (h6 : e1.status = e2.status)
    (h7 : e1.sources = e2.sources) (h8 : e1.days_until = e2.days_until)
    (h9 : e1.fundamentals = e2.fundamentals) :
    calculate_approval_probability e1 = calculate_approval_probability e2 ∧
    calculate_catalyst_score e1 = calculate_catalyst_score e2 := by
  constructor
  · unfold calculate_approval_probability
    rw [h1, h2, h3, h4, h5, h6, h7, h9]
  · unfold calculate_catalyst_score
    rw [h4, h7, h8, h9]

/-- Two renderings of the same catalyst, differing only in fields the
scoring engine never reads. -/
def eD1 : Event :=
  { ticker := "AAAA", catalyst_type := "PDUFA", status := "Upcoming",
    days_until := some 5, sources := ["rttnews"],
    fundamentals := [("price", "10"), ("target_price", "14")], extra := "one" }

def eD2 : Event :=
  { ticker := "BBBB", catalyst_type := "PDUFA", status := "Upcoming",
    days_until := some 5, sources := ["rttnews"],
    fundamentals := [("price", "10"), ("target_price", "14")],
    catalyst_date := "2026-01-01", source := "drugs_com", extra := "two" }

theorem scoring_deterministic_witness :
    calculate_approval_probability eD1 = calculate_approval_probability eD2 ∧
    calculate_catalyst_score eD1 = calculate_catalyst_score eD2 :=
  scoring_deterministic eD1 eD2 rfl rfl rfl rfl rfl rfl rfl rfl rfl

/-! ## Unparseable dates bypass the range filter (C10) -/

/-- C10: every merged event whose `catalyst_date` does not parse as a
date (empty, missing, or malformed) bypasses the `days_back` /
`days_forward` range filter of `get_fda_events` entirely: it appears in
the returned list with `days_until = None` (and the estimator attached),
for every clock value and every range. -/
theorem unparseable_date_included (e : Event) (merged : List Event)
    (now : ℚ) (days_back days_forward : Int)
    (hin : e ∈ merged) (hp : parseDate e.catalyst_date = none) :
    { e with days_until := none,
             approval_probability :=
               some (estimate_approval_probability { e with days_until := none }) }
      ∈ fdaPostProcess now days_back days_forward merged := by
  unfold fdaPostProcess
  rw [List.mem_insertionSort]
  have h' : { e with days_until := none } ∈ filterByRange now days_back days_forward merged := by
    unfold filterByRange
    rw [List.mem_filterMap]
    exact ⟨e, hin, by rw [hp]⟩
  exact List.mem_map_of_mem _ h'

/-- A merged event with a malformed date, for instantiating C10. -/
def eC10 : Event :=
  { ticker := "ACME", catalyst_type := "PDUFA", catalyst_date := "H1 2026",
    source := "biopharmcatalyst", sources := ["biopharmcatalyst"] }

theorem unparseable_date_included_witness :
    { eC10 with days_until := none,
                approval_probability :=
                  some (estimate_approval_probability { eC10 with days_until := none }) }
      ∈ fdaPostProcess 739000 30 90 [eC10] :=
  unparseable_date_included eC10 [eC10] 739000 30 90 (by decide) (by decide)

/-! ## Evaluation lemmas for the merge passes -/

theorem keyOf_initSources (e : Event) : keyOf (initSources e) = keyOf e := rfl

theorem ticker_initSources (e : Event) : (initSources e).ticker = e.ticker := rfl

theorem exactInsert_nil (e : Event) : exactInsert [] e = [initSources e] := rfl

theorem exactInsert_cons_ne {x e : Event} (h : ¬ keyOf x = keyOf e) (xs : List Event) :
    exactInsert (x :: xs) e = x :: exactInsert xs e := by
  rw [exactInsert, if_neg h]

theorem exactInsert_cons_eq {x e : Event} (h : keyOf x = keyOf e) (xs : List Event) :
    exactInsert (x :: xs) e = merge_into x e :: xs := by
  rw [exactInsert, if_pos h]

theorem absorb_nil (e : Event) : absorb e [] = (e, []) := rfl

theorem absorb_cons_hit {e x : Event} (xs : List Event)
    (h : e.ticker = x.ticker ∧ types_compatible e.catalyst_type x.catalyst_type = true ∧
      date_diff_days e.catalyst_date x.catalyst_date ≤ 3) :
    absorb e (x :: xs) = absorb (merge_into e x) xs := by
  rw [absorb, if_pos h]

theorem absorb_cons_miss {e x : Event} (xs : List Event)
    (h : ¬ (e.ticker = x.ticker ∧ types_compatible e.catalyst_type x.catalyst_type = true ∧
      date_diff_days e.catalyst_date x.catalyst_date ≤ 3)) :
    absorb e (x :: xs) = ((absorb e xs).1, x :: (absorb e xs).2) := by
  rw [absorb, if_neg h]

theorem nearPassAux_cons (fuel : Nat) (e : Event) (rest : List Event) :
    nearPassAux (fuel + 1) (e :: rest) =
      (absorb e rest).1 :: nearPassAux fuel (absorb e rest).2 := rfl

/-! ## Near-match window and missing dates (C2) -/

/-- Events used to exhibit C2's failure and to instantiate its amended
form: same ticker, compatible types, exactly one date missing. -/
def eC2a : Event :=
  { ticker := "ACME", catalyst_type := "PDUFA", catalyst_date := "", source := "p1" }

def eC2b : Event :=
  { ticker := "ACME", catalyst_type := "NDA", catalyst_date := "2026-03-10", source := "p2" }

/-- C2 counterexample: a same-ticker, compatible-category pair with
exactly one empty `catalyst_date` is NOT combined — the merge returns two
records, contradicting the claim that a missing date merges the pair. -/
theorem missing_date_counterexample :
    eC2a.ticker = eC2b.ticker ∧
    types_compatible eC2a.catalyst_type eC2b.catalyst_type = true ∧
    eC2a.catalyst_date = "" ∧ eC2b.catalyst_date ≠ "" ∧
    (merge_and_deduplicate [eC2a, eC2b]).length = 2 := by decide

/-- C2 amended: the near-match pass combines two events only when both
dates parse and lie within 3 days; a missing date yields the sentinel
999, which never satisfies the window, so a same-ticker pair with exactly
one empty `catalyst_date` always stays two separate records (whatever the
types). -/
theorem missing_date_not_merged (e1 e2 : Event)
    (h1 : ¬(pyUpper e1.ticker = "" ∨ pyUpper e1.ticker ∈ NON_TRADEABLE_TICKERS ∨
        pyUpper e1.ticker ∈ EXCLUDED_TICKERS))
    (h2 : ¬(pyUpper e2.ticker = "" ∨ pyUpper e2.ticker ∈ NON_TRADEABLE_TICKERS ∨
        pyUpper e2.ticker ∈ EXCLUDED_TICKERS))
    (hd1 : e1.catalyst_date = "") (hd2 : e2.catalyst_date ≠ "") :
    date_diff_days e1.catalyst_date e2.catalyst_date = 999 ∧
    (merge_and_deduplicate [e1, e2]).length = 2 := by
  have hdd : date_diff_days e1.catalyst_date e2.catalyst_date = 999 := by
    rw [date_diff_days, if_pos (Or.inl hd1)]
  refine ⟨hdd, ?_⟩
  set f1 : Event := { e1 with ticker := pyUpper e1.ticker } with hf1
  set f2 : Event := { e2 with ticker := pyUpper e2.ticker } with hf2
  have hv : validFilter [e1, e2] = [f1, f2] := by
    simp only [validFilter, List.filterMap_cons, List.filterMap_nil, if_neg h1, if_neg h2]
  have hkey : ¬ keyOf (initSources f1) = keyOf f2 := by
    rw [keyOf_initSources]
    simp only [keyOf, hf1, hf2, Prod.mk.injEq]
    rintro ⟨-, hdate, -⟩
    exact hd2 (hd1 ▸ hdate.symm)
  have he : exactPass [f1, f2] = [initSources f1, initSources f2] := by
    rw [exactPass, List.foldl_cons, List.foldl_cons, List.foldl_nil,
      exactInsert_nil, exactInsert_cons_ne hkey, exactInsert_nil]
  have habs : absorb (initSources f1) [initSources f2] =
      (initSources f1, [initSources f2]) := by
    rw [absorb_cons_miss]
    · rw [absorb_nil]
    · rintro ⟨-, -, hle⟩
      have : date_diff_days (initSources f1).catalyst_date
          (initSources f2).catalyst_date = 999 := hdd
      omega
  rw [merge_and_deduplicate, hv, he]
  rw [nearPass]
  simp only [List.length_cons, List.length_nil]
  rw [nearPassAux_cons, habs]
  rfl

theorem missing_date_not_merged_witness :
    date_diff_days eC2a.catalyst_date eC2b.catalyst_date = 999 ∧
    (merge_and_deduplicate [eC2a, eC2b]).length = 2 :=
  missing_date_not_merged eC2a eC2b (by decide) (by decide) (by decide) (by decide)


/-! ## Merge transitivity (C3) -/

/-- C3: three same-ticker events from three distinct providers, at dates
D, D+2 and D+3 with types PDUFA, NDA, PDUFA, merge into exactly one
record that carries all three providers in `sources` (and keeps the most
specific type, PDUFA).  The ticker, the dates and the providers are
arbitrary, subject only to the ticker being tradeable and the dates
parsing at the stated offsets. -/
theorem merge_transitive_chain
    (t d1 d2 d3 pa pb pc : String) (n1 : Nat)
    (ht : ¬(pyUpper t = "" ∨ pyUpper t ∈ NON_TRADEABLE_TICKERS ∨
        pyUpper t ∈ EXCLUDED_TICKERS))
    (hd1 : parseDate d1 = some n1) (hd2 : parseDate d2 = some (n1 + 2))
    (hd3 : parseDate d3 = some (n1 + 3))
    (hpb : pb ≠ "") (hpc : pc ≠ "")
    (hab : pb ≠ pa) (hac : pc ≠ pa) (hbc : pc ≠ pb) :
    (merge_and_deduplicate
      [{ ticker := t, catalyst_type := "PDUFA", catalyst_date := d1, source := pa },
       { ticker := t, catalyst_type := "NDA", catalyst_date := d2, source := pb },
       { ticker := t, catalyst_type := "PDUFA", catalyst_date := d3, source := pc }]).map
      (fun e => (e.ticker, e.catalyst_type, e.sources)) =
    [(pyUpper t, "PDUFA", [pa, pb, pc])] := by
  have hpe : parseDate "" = none := rfl
  have hne1 : ¬ d1 = "" := fun h => by rw [h, hpe] at hd1; cases hd1
  have hne2 : ¬ d2 = "" := fun h => by rw [h, hpe] at hd2; cases hd2
  have hne3 : ¬ d3 = "" := fun h => by rw [h, hpe] at hd3; cases hd3
  have h13 : ¬ d1 = d3 := fun h => by
    rw [h, hd3] at hd1
    injection hd1 with h'
    omega
  have hdd12 : date_diff_days d1 d2 = 2 := by
    rw [date_diff_days, if_neg (by push_neg; exact ⟨hne1, hne2⟩)]
    simp only [hd1, hd2]
    omega
  have hdd13 : date_diff_days d1 d3 = 3 := by
    rw [date_diff_days, if_neg (by push_neg; exact ⟨hne1, hne3⟩)]
    simp only [hd1, hd3]
    omega
  simp +decide [merge_and_deduplicate, validFilter, if_neg ht, exactPass,
    exactInsert, keyOf, initSources, Prod.mk.injEq, h13, nearPass,
    nearPassAux, absorb, merge_into, mergeField, typePriority, hdd12, hdd13,
    hab, hac, hbc, hpb, hpc, types_compatible, MERGE_TYPES]

/-! ## Permutation behaviour of the merge (C1)

The near-match pass is an order-dependent pairwise sweep and the
exact-pass resets `sources`, so the claimed invariance fails in general
(see the counterexample).  It does hold when no two valid events share a
ticker, which is what the amended claim states; the lemmas below
characterise both passes under that hypothesis. -/

theorem charUpper_toNat {c : Char} (h : 97 ≤ c.toNat ∧ c.toNat ≤ 122) :
    (Char.ofNat (c.toNat - 32)).toNat = c.toNat - 32 := by
  have hv : (c.toNat - 32).isValidChar := Or.inl (by omega)
  rw [Char.ofNat, dif_pos hv]
  rfl

theorem charUpper_idem (c : Char) : charUpper (charUpper c) = charUpper c := by
  by_cases h : 97 ≤ c.toNat ∧ c.toNat ≤ 122
  · have h1 : charUpper c = Char.ofNat (c.toNat - 32) := if_pos h
    rw [h1]
    exact if_neg (fun hcon => by rw [charUpper_toNat h] at hcon; omega)
  · have h1 : charUpper c = c := if_neg h
    rw [h1, h1]

theorem pyUpper_idem (s : String) : pyUpper (pyUpper s) = pyUpper s :=
  calc pyUpper (pyUpper s) = ⟨(s.data.map charUpper).map charUpper⟩ := rfl
    _ = ⟨s.data.map charUpper⟩ := by
        rw [List.map_map]
        exact congrArg String.mk (List.map_congr_left (fun a _ => charUpper_idem a))
    _ = pyUpper s := rfl

/-- Pairwise distinctness of the exact-dedup keys. -/
def KeysDistinct (l : List Event) : Prop :=
  (l.map keyOf).Pairwise (· ≠ ·)

theorem exactInsert_append {acc : List Event} {e : Event}
    (h : ∀ x ∈ acc, keyOf x ≠ keyOf e) :
    exactInsert acc e = acc ++ [initSources e] := by
  induction acc with
  | nil => rfl
  | cons x xs ih =>
    rw [exactInsert_cons_ne (h x (List.mem_cons_self x xs)),
      ih (fun y hy => h y (List.mem_cons_of_mem x hy)), List.cons_append]

theorem foldl_exactInsert_of_distinct :
    ∀ (l acc : List Event), KeysDistinct (acc ++ l) →
      l.foldl exactInsert acc = acc ++ l.map initSources
  | [], acc, _ => by simp
  | e :: l, acc, h => by
    have h' : ((acc.map keyOf) ++ (keyOf e :: l.map keyOf)).Pairwise (· ≠ ·) := by
      simpa [KeysDistinct, List.map_append] using h
    obtain ⟨h1, h2, h3⟩ := List.pairwise_append.mp h'
    have hacc : ∀ x ∈ acc, keyOf x ≠ keyOf e := fun x hx =>
      h3 (keyOf x) (List.mem_map_of_mem keyOf hx) (keyOf e) (List.mem_cons_self _ _)
    rw [List.foldl_cons, exactInsert_append hacc,
      foldl_exactInsert_of_distinct l (acc ++ [initSources e]) ?_]
    · rw [List.append_assoc, List.singleton_append, List.map_cons]
    · show (((acc ++ [initSources e]) ++ l).map keyOf).Pairwise (· ≠ ·)
      have heq : ((acc ++ [initSources e]) ++ l).map keyOf =
          (acc.map keyOf) ++ (keyOf e :: l.map keyOf) := by
        simp [keyOf_initSources, List.map_append]
      rw [heq]
      exact h'

theorem exactPass_of_distinct {l : List Event} (h : KeysDistinct l) :
    exactPass l = l.map initSources := by
  have := foldl_exactInsert_of_distinct l [] (by simpa [KeysDistinct] using h)
  simpa [exactPass] using this

theorem absorb_of_ticker_ne {e : Event} :
    ∀ {xs : List Event}, (∀ x ∈ xs, e.ticker ≠ x.ticker) → absorb e xs = (e, xs)
  | [], _ => rfl
  | x :: xs, h => by
    rw [absorb_cons_miss _ (fun hc => h x (List.mem_cons_self x xs) hc.1),
      absorb_of_ticker_ne (fun y hy => h y (List.mem_cons_of_mem x hy))]

theorem nearPassAux_of_pairwise :
    ∀ (fuel : Nat) (l : List Event), l.length ≤ fuel →
      l.Pairwise (fun a b => a.ticker ≠ b.ticker) → nearPassAux fuel l = l
  | 0, l, hlen, _ => by
    rw [List.length_eq_zero.mp (Nat.le_zero.mp hlen)]
    rfl
  | _ + 1, [], _, _ => rfl
  | fuel + 1, e :: rest, hlen, hp => by
    obtain ⟨hhead, htail⟩ := List.pairwise_cons.mp hp
    rw [nearPassAux_cons, absorb_of_ticker_ne hhead]
    rw [nearPassAux_of_pairwise fuel rest
      (by simpa using Nat.le_of_succ_le_succ hlen) htail]

theorem nearPass_of_pairwise {l : List Event}
    (h : l.Pairwise fun a b => a.ticker ≠ b.ticker) : nearPass l = l :=
  nearPassAux_of_pairwise l.length l le_rfl h

theorem keysDistinct_of_tickers {l : List Event}
    (h : l.Pairwise fun a b => a.ticker ≠ b.ticker) : KeysDistinct l := by
  rw [KeysDistinct, List.pairwise_map]
  exact h.imp (fun hne hk => hne (congrArg (fun p => p.1) hk))

theorem tickers_map_init {l : List Event}
    (h : l.Pairwise fun a b => a.ticker ≠ b.ticker) :
    (l.map initSources).Pairwise fun a b => a.ticker ≠ b.ticker := by
  rw [List.pairwise_map]
  exact h

/-- Under pairwise-distinct tickers the whole merge is just the filter
pass followed by `sources` initialisation. -/
theorem merge_eq_map_of_distinct {l : List Event}
    (h : (validFilter l).Pairwise fun a b => a.ticker ≠ b.ticker) :
    merge_and_deduplicate l = (validFilter l).map initSources := by
  rw [merge_and_deduplicate, exactPass_of_distinct (keysDistinct_of_tickers h),
    nearPass_of_pairwise (tickers_map_init h)]

theorem validFilter_mem_spec {l : List Event} {x : Event} (hx : x ∈ validFilter l) :
    pyUpper x.ticker = x.ticker ∧
    ¬(x.ticker = "" ∨ x.ticker ∈ NON_TRADEABLE_TICKERS ∨
      x.ticker ∈ EXCLUDED_TICKERS) := by
  rw [validFilter, List.mem_filterMap] at hx
  obtain ⟨a, -, hfa⟩ := hx
  by_cases hc : pyUpper a.ticker = "" ∨ pyUpper a.ticker ∈ NON_TRADEABLE_TICKERS ∨
      pyUpper a.ticker ∈ EXCLUDED_TICKERS
  · rw [if_pos hc] at hfa
    cases hfa
  · rw [if_neg hc] at hfa
    injection hfa with hfa
    rw [← hfa]
    exact ⟨pyUpper_idem a.ticker, hc⟩

theorem validFilter_fixed {m : List Event}
    (h : ∀ x ∈ m, pyUpper x.ticker = x.ticker ∧
      ¬(x.ticker = "" ∨ x.ticker ∈ NON_TRADEABLE_TICKERS ∨
        x.ticker ∈ EXCLUDED_TICKERS)) :
    validFilter m = m := by
  induction m with
  | nil => rfl
  | cons x xs ih =>
    obtain ⟨hfix, hcond⟩ := h x (List.mem_cons_self x xs)
    have ih' := ih (fun y hy => h y (List.mem_cons_of_mem x hy))
    show List.filterMap _ (x :: xs) = x :: xs
    rw [List.filterMap_cons]
    simp only [hfix, if_neg hcond]
    exact congrArg (List.cons x) ih'

theorem merge_idem_of_distinct {l : List Event}
    (hdist : (validFilter l).Pairwise fun a b => a.ticker ≠ b.ticker) :
    merge_and_deduplicate (merge_and_deduplicate l) = merge_and_deduplicate l := by
  have hm := merge_eq_map_of_distinct hdist
  have hmp : (merge_and_deduplicate l).Pairwise (fun a b => a.ticker ≠ b.ticker) := by
    rw [hm]
    exact tickers_map_init hdist
  have hspec : ∀ x ∈ merge_and_deduplicate l, pyUpper x.ticker = x.ticker ∧
      ¬(x.ticker = "" ∨ x.ticker ∈ NON_TRADEABLE_TICKERS ∨
        x.ticker ∈ EXCLUDED_TICKERS) := by
    intro x hx
    rw [hm] at hx
    obtain ⟨y, hy, rfl⟩ := List.mem_map.mp hx
    exact validFilter_mem_spec (x := y) hy
  conv_lhs => rw [merge_and_deduplicate]
  rw [validFilter_fixed hspec, exactPass_of_distinct (keysDistinct_of_tickers hmp),
    nearPass_of_pairwise (tickers_map_init hmp), hm, List.map_map]
  exact List.map_congr_left (fun a _ => rfl)

/-- C1 amended: when no two valid raw events share a ticker, merging any
permutation of the list yields the same canonical set (a permutation of
the same records, field values included), and merging the output again
reproduces it exactly.  (Without that restriction both halves fail — see
the counterexample.) -/
theorem merge_perm_invariant_of_distinct (l l' : List Event)
    (hperm : l'.Perm l)
    (hdist : (validFilter l).Pairwise fun a b => a.ticker ≠ b.ticker) :
    (merge_and_deduplicate l').Perm (merge_and_deduplicate l) ∧
    merge_and_deduplicate (merge_and_deduplicate l) = merge_and_deduplicate l := by
  have hsym : ∀ {x y : Event}, x.ticker ≠ y.ticker → y.ticker ≠ x.ticker :=
    fun h => h.symm
  have hvperm : (validFilter l').Perm (validFilter l) := hperm.filterMap _
  have hdist' : (validFilter l').Pairwise fun a b => a.ticker ≠ b.ticker :=
    (hvperm.pairwise_iff hsym).mpr hdist
  refine ⟨?_, merge_idem_of_distinct hdist⟩
  rw [merge_eq_map_of_distinct hdist, merge_eq_map_of_distinct hdist']
  exact hvperm.map _

/-- Two reports of the same catalyst from different providers (same
exact key). -/
def eI1 : Event :=
  { ticker := "ACME", catalyst_type := "PDUFA", catalyst_date := "2026-03-10",
    source := "p1" }

def eI2 : Event :=
  { ticker := "ACME", catalyst_type := "PDUFA", catalyst_date := "2026-03-10",
    source := "p2" }

/-- A chain of same-ticker events at dates D, D+3, D+6: each neighbour
pair is within the 3-day window but the endpoints are not. -/
def eQ1 : Event :=
  { ticker := "ACME", catalyst_type := "PDUFA", catalyst_date := "2026-03-10",
    source := "pa" }

def eQ2 : Event :=
  { ticker := "ACME", catalyst_type := "NDA", catalyst_date := "2026-03-13",
    source := "pb" }

def eQ3 : Event :=
  { ticker := "ACME", catalyst_type := "PDUFA", catalyst_date := "2026-03-16",
    source := "pc" }

/-- C1 counterexample.  (i) Idempotence fails: re-merging the merged
output of two same-key events resets `sources` from `[p1, p2]` to
`[p1]`.  (ii) Permutation invariance fails: the D/D+3/D+6 chain collapses
to one record when the middle event comes first (it absorbs both
neighbours) but to two records in date order (D absorbs D+3, then D+6 is
out of window of D). -/
theorem merge_perm_counterexample :
    (merge_and_deduplicate (merge_and_deduplicate [eI1, eI2]) ≠
      merge_and_deduplicate [eI1, eI2]) ∧
    [eQ2, eQ1, eQ3].Perm [eQ1, eQ2, eQ3] ∧
    (merge_and_deduplicate [eQ2, eQ1, eQ3]).length = 1 ∧
    (merge_and_deduplicate [eQ1, eQ2, eQ3]).length = 2 :=
  ⟨by decide, List.Perm.swap eQ1 eQ2 [eQ3], by decide, by decide⟩

/-- Distinct-ticker events for the amended claim's witness. -/
def eW1 : Event := { ticker := "aaaa", catalyst_type := "PDUFA", source := "p1" }

def eW2 : Event := { ticker := "bbbb", catalyst_type := "NDA", source := "p2" }

theorem merge_perm_invariant_witness :
    (merge_and_deduplicate [eW2, eW1]).Perm (merge_and_deduplicate [eW1, eW2]) ∧
    merge_and_deduplicate (merge_and_deduplicate [eW1, eW2]) =
      merge_and_deduplicate [eW1, eW2] :=
  merge_perm_invariant_of_distinct [eW1, eW2] [eW2, eW1]
    (List.Perm.swap eW1 eW2 []) (by decide)

theorem merge_transitive_chain_witness :
    (merge_and_deduplicate
      [{ ticker := "acme", catalyst_type := "PDUFA", catalyst_date := "2026-03-10",
         source := "biopharmcatalyst" },
       { ticker := "acme", catalyst_type := "NDA", catalyst_date := "2026-03-12",
         source := "rttnews" },
       { ticker := "acme", catalyst_type := "PDUFA", catalyst_date := "2026-03-13",
         source := "drugs_com" }]).map
      (fun e => (e.ticker, e.catalyst_type, e.sources)) =
    [(pyUpper "acme", "PDUFA", ["biopharmcatalyst", "rttnews", "drugs_com"])] :=
  merge_transitive_chain "acme" "2026-03-10" "2026-03-12" "2026-03-13"
    "biopharmcatalyst" "rttnews" "drugs_com" (dayNumber 2026 3 10)
    (by decide) (by decide) (by decide) (by decide)
    (by decide) (by decide) (by decide) (by decide) (by decide)

end StockScanner
